import Mathlib

/-!
Verification of the geometry and layout engine of the character card
generator.  The definitions below are a shallow embedding of the
TypeScript sources (`src/constants.ts`, `src/types.ts`,
`src/utils/pdfGenerator.ts`): millimetre and pixel quantities are
modelled as exact rationals, the asynchronous image loads as a boolean
`imageLoads` field on a card, and the jsPDF document as the page count,
the list of `addPage` call sites and the list of per-card placements.
-/

namespace CardGen

/-! Geometry model, from `src/constants.ts`. -/

def A4_WIDTH_MM : ℚ := 210

def A4_HEIGHT_MM : ℚ := 297

def CARD_WIDTH_MM : ℚ := A4_WIDTH_MM

def BORDER_WIDTH_MM : ℚ := 1

/-- Card height in mm: `A4_HEIGHT_MM / 5 / 2` for the 20-per-page layout,
otherwise `A4_HEIGHT_MM / cardsPerPage`. -/
def getCardHeight (cardsPerPage : ℕ) : ℚ :=
  if cardsPerPage = 20 then A4_HEIGHT_MM / 5 / 2 else A4_HEIGHT_MM / (cardsPerPage : ℚ)

/-- Card width in mm: half the page width for the 20-per-page layout,
otherwise the full page width. -/
def getCardWidth (cardsPerPage : ℕ) : ℚ :=
  if cardsPerPage = 20 then CARD_WIDTH_MM / 2 else CARD_WIDTH_MM

def getHalfWidth (cardsPerPage : ℕ) : ℚ :=
  getCardWidth cardsPerPage / 2

def getHalfHeight (cardsPerPage : ℕ) : ℚ :=
  getCardHeight cardsPerPage

/-! Cover-crop source rectangle, from `renderCardHalfToDataUrl` in
`src/utils/pdfGenerator.ts` (lines 52-69).  The result is
`(srcX, srcY, srcWidth, srcHeight)`. -/

def computeCrop (imgWidth imgHeight widthPx heightPx : ℚ) : ℚ × ℚ × ℚ × ℚ :=
  let imgAspect := imgWidth / imgHeight
  let targetAspect := heightPx / widthPx
  if imgAspect > targetAspect then
    let srcWidth := imgHeight * targetAspect
    ((imgWidth - srcWidth) / 2, 0, srcWidth, imgHeight)
  else
    let srcHeight := imgWidth / targetAspect
    (0, (imgHeight - srcHeight) / 2, imgWidth, srcHeight)

/-- C2: for every layout option L in {4,5,20} the derived geometry is exact:
`cardHeight(L) = 297 / L` for L in {4,5}, `cardHeight(20) = 297 / 5 / 2 =
cardHeight(5) / 2`, `cardWidth(L) = 210` for L in {4,5}, `cardWidth(20) =
210 / 2`, `halfWidth(L) = cardWidth(L) / 2` and `halfHeight(L) =
cardHeight(L)`. -/
theorem geometry_exact :
    getCardHeight 4 = 297 / 4 ∧ getCardHeight 5 = 297 / 5 ∧
    getCardHeight 20 = 297 / 5 / 2 ∧ getCardHeight 20 = getCardHeight 5 / 2 ∧
    getCardWidth 4 = 210 ∧ getCardWidth 5 = 210 ∧ getCardWidth 20 = 210 / 2 ∧
    getHalfWidth 4 = getCardWidth 4 / 2 ∧ getHalfWidth 5 = getCardWidth 5 / 2 ∧
    getHalfWidth 20 = getCardWidth 20 / 2 ∧
    getHalfHeight 4 = getCardHeight 4 ∧ getHalfHeight 5 = getCardHeight 5 ∧
    getHalfHeight 20 = getCardHeight 20 := by
  norm_num [getCardHeight, getCardWidth, getHalfWidth, getHalfHeight,
    A4_HEIGHT_MM, A4_WIDTH_MM, CARD_WIDTH_MM]

/-- C3: the half-render's cover crop keeps full height and crops centred
horizontally when `imageAspect > targetAspect`, and otherwise keeps full
width and crops centred vertically, with `targetAspect = heightPx / widthPx`
and `imageAspect = imgWidth / imgHeight`. -/
theorem computeCrop_cases (imgWidth imgHeight widthPx heightPx : ℚ)
    (hiw : 0 < imgWidth) (hih : 0 < imgHeight)
    (hw : 0 < widthPx) (hh : 0 < heightPx) :
    (imgWidth / imgHeight > heightPx / widthPx →
      computeCrop imgWidth imgHeight widthPx heightPx =
        ((imgWidth - imgHeight * (heightPx / widthPx)) / 2, 0,
          imgHeight * (heightPx / widthPx), imgHeight)) ∧
    (¬ imgWidth / imgHeight > heightPx / widthPx →
      computeCrop imgWidth imgHeight widthPx heightPx =
        (0, (imgHeight - imgWidth / (heightPx / widthPx)) / 2,
          imgWidth, imgWidth / (heightPx / widthPx))) := by
  constructor <;> intro hcase <;> simp [computeCrop, hcase]

/-- Witness for C3 at a concrete wide image and square target. -/
theorem computeCrop_cases_witness :
    (0 < (4 : ℚ)) ∧ (0 < (2 : ℚ)) ∧ (0 < (1 : ℚ)) ∧
    ((4 : ℚ) / 2 > (1 : ℚ) / 1 →
      computeCrop 4 2 1 1 = ((4 - 2 * ((1 : ℚ) / 1)) / 2, 0, 2 * ((1 : ℚ) / 1), 2)) := by
  refine ⟨by norm_num, by norm_num, by norm_num, ?_⟩
  exact (computeCrop_cases 4 2 1 1 (by norm_num) (by norm_num) (by norm_num) (by norm_num)).1

/-- C9: the crop rectangle computed by the half-render lies inside the
source image and has positive size. -/
theorem computeCrop_in_bounds (imgWidth imgHeight widthPx heightPx : ℚ)
    (hiw : 0 < imgWidth) (hih : 0 < imgHeight)
    (hw : 0 < widthPx) (hh : 0 < heightPx) :
    0 ≤ (computeCrop imgWidth imgHeight widthPx heightPx).1 ∧
    0 ≤ (computeCrop imgWidth imgHeight widthPx heightPx).2.1 ∧
    (computeCrop imgWidth imgHeight widthPx heightPx).1 +
      (computeCrop imgWidth imgHeight widthPx heightPx).2.2.1 ≤ imgWidth ∧
    (computeCrop imgWidth imgHeight widthPx heightPx).2.1 +
      (computeCrop imgWidth imgHeight widthPx heightPx).2.2.2 ≤ imgHeight ∧
    0 < (computeCrop imgWidth imgHeight widthPx heightPx).2.2.1 ∧
    0 < (computeCrop imgWidth imgHeight widthPx heightPx).2.2.2 := by
  have hta : 0 < heightPx / widthPx := div_pos hh hw
  by_cases hcase : imgWidth / imgHeight > heightPx / widthPx
  · have hsw : 0 < imgHeight * (heightPx / widthPx) := mul_pos hih hta
    have hle : imgHeight * (heightPx / widthPx) ≤ imgWidth := by
      have := (lt_div_iff hih).mp hcase
      linarith [this]
    simp only [computeCrop, if_pos hcase]
    refine ⟨by linarith, by linarith, by linarith, by linarith, hsw, hih⟩
  · have hsh : 0 < imgWidth / (heightPx / widthPx) := div_pos hiw hta
    have hle : imgWidth / (heightPx / widthPx) ≤ imgHeight := by
      rw [div_le_iff hta]
      have := not_lt.mp hcase
      have := (div_le_iff hih).mp this
      linarith [this]
    simp only [computeCrop, if_neg hcase]
    refine ⟨by linarith, by linarith, by linarith, by linarith, hiw, hsh⟩

/-- Witness for C9 at a concrete tall image and wide target. -/
theorem computeCrop_in_bounds_witness :
    (0 < (3 : ℚ)) ∧ (0 < (9 : ℚ)) ∧ (0 < (2 : ℚ)) ∧ (0 < (1 : ℚ)) ∧
    0 ≤ (computeCrop 3 9 2 1).1 ∧ 0 ≤ (computeCrop 3 9 2 1).2.1 ∧
    (computeCrop 3 9 2 1).1 + (computeCrop 3 9 2 1).2.2.1 ≤ 3 ∧
    (computeCrop 3 9 2 1).2.1 + (computeCrop 3 9 2 1).2.2.2 ≤ 9 ∧
    0 < (computeCrop 3 9 2 1).2.2.1 ∧ 0 < (computeCrop 3 9 2 1).2.2.2 := by
  have h := computeCrop_in_bounds 3 9 2 1 (by norm_num) (by norm_num)
    (by norm_num) (by norm_num)
  exact ⟨by norm_num, by norm_num, by norm_num, by norm_num,
    h.1, h.2.1, h.2.2.1, h.2.2.2.1, h.2.2.2.2.1, h.2.2.2.2.2⟩

/-! Data model, from `src/types.ts`. -/

inductive FontOption
  | medieval
  | elegant
  | fantasy
deriving DecidableEq, Repr

inductive BlockSizeOption
  | small
  | medium
  | large
deriving DecidableEq, Repr

inductive NameBackgroundType
  | gradientDark
  | gradientGold
  | gradientRed
  | scroll
  | banner
  | shield
deriving DecidableEq, Repr

inductive NameDisplaySide
  | player
  | gm
  | both
deriving DecidableEq, Repr

structure NameSettings where
  enabled : Bool
  name : String
  font : FontOption
  blockSize : BlockSizeOption
  background : NameBackgroundType
  displaySide : NameDisplaySide
deriving DecidableEq, Repr

/-- Default name settings for new cards, from `src/types.ts`. -/
def defaultNameSettings : NameSettings :=
  { enabled := false
    name := ""
    font := .medieval
    blockSize := .medium
    background := .gradientDark
    displaySide := .player }

/-- A card as the layout engine reads it: whether its source image decodes
(the outcome of `loadImage`) and its name settings. -/
structure CharacterCard where
  imageLoads : Bool
  nameSettings : NameSettings
deriving DecidableEq, Repr

/-- Block height in mm by size option, from `getBlockHeightMm`. -/
def getBlockHeightMm (size : BlockSizeOption) : ℚ :=
  match size with
  | .small => 7
  | .medium => 10
  | .large => 14

/-! String helpers modelling the JavaScript built-ins the renderer uses:
`String.prototype.trim` and `String.prototype.split(' ')`. -/

/-- JavaScript `s.trim()`: strip whitespace from both ends. -/
def strTrim (s : String) : String :=
  ⟨((s.data.dropWhile Char.isWhitespace).reverse.dropWhile Char.isWhitespace).reverse⟩

def splitAux : List Char → List Char → List String
  | [], acc => [⟨acc.reverse⟩]
  | c :: cs, acc => if c = ' ' then ⟨acc.reverse⟩ :: splitAux cs [] else splitAux cs (c :: acc)

/-- JavaScript `s.split(' ')`: split at every single space. -/
def splitSpaces (s : String) : List String :=
  splitAux s.data []

/-! Word wrapping, from `wrapText` in `src/utils/pdfGenerator.ts`
(lines 265-291).  `measure` stands for `ctx.measureText(...).width`. -/

def wrapAux (measure : String → ℚ) (maxWidth : ℚ) :
    List String → List String → String → List String
  | [], lines, currentLine => if currentLine ≠ "" then lines ++ [currentLine] else lines
  | word :: words, lines, currentLine =>
    let testLine := if currentLine = "" then word else currentLine ++ " " ++ word
    if measure testLine > maxWidth ∧ currentLine ≠ "" then
      wrapAux measure maxWidth words (lines ++ [currentLine]) word
    else
      wrapAux measure maxWidth words lines testLine

def wrapText (measure : String → ℚ) (text : String) (maxWidth : ℚ) : List String :=
  wrapAux measure maxWidth (splitSpaces text) [] ""

/-- Join lines back with single spaces (the inverse of splitting a text of
single-space-separated words). -/
def joinSp : List String → String
  | [] => ""
  | [line] => line
  | line :: lines => line ++ " " ++ joinSp lines

theorem joinSp_cons_ne (line : String) (lines : List String) (h : lines ≠ []) :
    joinSp (line :: lines) = line ++ " " ++ joinSp lines := by
  match lines with
  | [] => exact absurd rfl h
  | l :: ls => rfl

theorem joinSp_merge (a b : String) :
    ∀ (lines rest : List String),
      joinSp (lines ++ (a ++ " " ++ b) :: rest) = joinSp (lines ++ a :: b :: rest)
  | [], [] => by simp [joinSp, String.append_assoc]
  | [], r :: rs => by
    simp only [List.nil_append]
    rw [joinSp_cons_ne _ _ (by simp), joinSp_cons_ne a _ (by simp),
      joinSp_cons_ne b _ (by simp)]
    simp [String.append_assoc]
  | l :: ls, rest => by
    rw [List.cons_append, List.cons_append,
      joinSp_cons_ne _ _ (by simp), joinSp_cons_ne _ _ (by simp),
      joinSp_merge a b ls rest]

theorem string_append_space_ne (s w : String) : s ++ " " ++ w ≠ "" := by
  intro h
  have h' := congrArg String.length h
  rw [String.length_append, String.length_append] at h'
  have h1 : (" " : String).length = 1 := rfl
  have h0 : ("" : String).length = 0 := rfl
  rw [h1, h0] at h'
  omega

theorem wrapAux_join (measure : String → ℚ) (maxWidth : ℚ) :
    ∀ (words : List String) (lines : List String) (currentLine : String),
      (∀ w ∈ words, w ≠ "") → currentLine ≠ "" →
      joinSp (wrapAux measure maxWidth words lines currentLine) =
        joinSp (lines ++ currentLine :: words)
  | [], lines, currentLine, _, hcur => by
    simp [wrapAux, hcur]
  | word :: words, lines, currentLine, hwords, hcur => by
    have hword : word ≠ "" := hwords word (by simp)
    have hrest : ∀ w ∈ words, w ≠ "" := fun w hw => hwords w (by simp [hw])
    rw [wrapAux]
    simp only [if_neg hcur]
    by_cases hpush : measure (currentLine ++ " " ++ word) > maxWidth
    · rw [if_pos ⟨hpush, hcur⟩,
        wrapAux_join measure maxWidth words (lines ++ [currentLine]) word hrest hword]
      simp
    · rw [if_neg (fun hc => hpush hc.1),
        wrapAux_join measure maxWidth words lines (currentLine ++ " " ++ word) hrest
          (string_append_space_ne currentLine word)]
      exact joinSp_merge currentLine word lines words

/-- C10: for a text of non-empty single-space-separated words, joining the
lines produced by `wrapText` with single spaces reproduces the text exactly,
for every measure function and every maximum width. -/
theorem wrapText_join (measure : String → ℚ) (maxWidth : ℚ)
    (text : String) (words : List String)
    (hsplit : splitSpaces text = words)
    (hwords : ∀ w ∈ words, w ≠ "")
    (hjoin : text = joinSp words) :
    joinSp (wrapText measure text maxWidth) = text := by
  rw [wrapText, hsplit]
  cases words with
  | nil => simp [wrapAux, joinSp, hjoin]
  | cons word words =>
    have hword : word ≠ "" := hwords word (by simp)
    have hrest : ∀ w ∈ words, w ≠ "" := fun w hw => hwords w (by simp [hw])
    have hstep : wrapAux measure maxWidth (word :: words) [] "" =
        wrapAux measure maxWidth words [] word := by
      rw [wrapAux]
      simp
    rw [hstep, wrapAux_join measure maxWidth words [] word hrest hword]
    simp [hjoin]

/-- Witness for C10 on the text "hello brave world" with a length measure. -/
theorem wrapText_join_witness :
    splitSpaces "hello brave world" = ["hello", "brave", "world"] ∧
    (∀ w ∈ ["hello", "brave", "world"], w ≠ "") ∧
    "hello brave world" = joinSp ["hello", "brave", "world"] ∧
    joinSp (wrapText (fun s => (s.length : ℚ)) "hello brave world" 6) =
      "hello brave world" := by
  refine ⟨by decide, by decide, by decide, ?_⟩
  exact wrapText_join (fun s => (s.length : ℚ)) 6 "hello brave world"
    ["hello", "brave", "world"] (by decide) (by decide) (by decide)

/-! Name label rendering guards, from `drawCharacterName` in
`src/utils/pdfGenerator.ts` (lines 402-418) and the per-card guard in
`generatePDF` (lines 599-604). -/

/-- The `shouldShow` display-side filter inside `drawCharacterName`. -/
def shouldShow (ns : NameSettings) (isGmSide : Bool) : Bool :=
  ns.displaySide == .both ||
    (ns.displaySide == .player && !isGmSide) ||
    (ns.displaySide == .gm && isGmSide)

/-- Whether `drawCharacterName` actually draws a label: it returns early
unless the name is enabled and non-blank and the display side permits. -/
def drawCharacterName (ns : NameSettings) (isGmSide : Bool) : Bool :=
  if !ns.enabled || strTrim ns.name == "" then false
  else if !shouldShow ns isGmSide then false
  else true

/-- The labels drawn for one card by `generatePDF`: the outer guard checks
`enabled` and a non-blank trimmed name, then `drawCharacterName` is invoked
for the GM side and the player side. -/
def cardLabels (ns : NameSettings) : Bool × Bool :=
  if ns.enabled && strTrim ns.name != "" then
    (drawCharacterName ns true, drawCharacterName ns false)
  else
    (false, false)

/-- Label presence on one side of a card as generated. -/
def labelOnSide (ns : NameSettings) (isGmSide : Bool) : Bool :=
  if isGmSide then (cardLabels ns).1 else (cardLabels ns).2

/-- C7: a name label is rendered on a side iff the name is enabled, its trim
is non-empty, and the display side permits that side; 'player' never shows
on the GM side, 'gm' never on the player side, 'both' shows on both. -/
theorem labelOnSide_iff (ns : NameSettings) (isGmSide : Bool) :
    labelOnSide ns isGmSide = true ↔
      (ns.enabled = true ∧ strTrim ns.name ≠ "" ∧
        (ns.displaySide = .both ∨
          (ns.displaySide = .player ∧ isGmSide = false) ∨
          (ns.displaySide = .gm ∧ isGmSide = true))) := by
  cases hen : ns.enabled <;>
    cases hside : ns.displaySide <;>
      cases isGmSide <;>
        by_cases htrim : strTrim ns.name = "" <;>
          simp [labelOnSide, cardLabels, drawCharacterName, shouldShow, hen, hside, htrim]

/-! Adaptive font fit, from `renderNameLabelToDataUrl` in
`src/utils/pdfGenerator.ts` (lines 353-392).  The mutable loop state is the
current `fontSize`, the last wrapped `lines` and the last
`totalTextHeight`; the line height multiplier 1.15 is 23/20. -/

structure FitResult where
  fontSize : ℤ
  lines : List String
  totalTextHeight : ℚ
deriving Repr

def fitLoop (measure : ℤ → String → ℚ) (name : String) (maxWidth maxHeight : ℚ)
    (fontSize : ℤ) (lines : List String) (totalTextHeight : ℚ) : FitResult :=
  if 14 ≤ fontSize then
    let lines' := wrapText (measure fontSize) name maxWidth
    let total' := (lines'.length : ℚ) * (fontSize : ℚ) * (23 / 20)
    if total' ≤ maxHeight then ⟨fontSize, lines', total'⟩
    else fitLoop measure name maxWidth maxHeight (fontSize - 2) lines' total'
  else ⟨fontSize, lines, totalTextHeight⟩
  termination_by (fontSize + 2).toNat
  decreasing_by simp_wf; omega

/-- Starting font size `Math.floor(heightPx * 0.45)`. -/
def startFontSize (heightPx : ℚ) : ℤ :=
  ⌊heightPx * (9 / 20)⌋

/-- The font-fit portion of `renderNameLabelToDataUrl`: padding 16, so the
wrap width is `widthPx - 32` and the height budget is `heightPx - 16`. -/
def renderNameLabelFontFit (measure : ℤ → String → ℚ) (ns : NameSettings)
    (widthPx heightPx : ℚ) : FitResult :=
  fitLoop measure ns.name (widthPx - 16 * 2) (heightPx - 16) (startFontSize heightPx) [] 0

/-- The loop's fitting condition at candidate size `f`. -/
def fitsAt (measure : ℤ → String → ℚ) (name : String) (maxWidth maxHeight : ℚ)
    (f : ℤ) : Prop :=
  ((wrapText (measure f) name maxWidth).length : ℚ) * (f : ℚ) * (23 / 20) ≤ maxHeight

theorem fitLoop_exit (measure : ℤ → String → ℚ) (name : String)
    (maxWidth maxHeight : ℚ) (fontSize : ℤ) (lines : List String) (total : ℚ)
    (h : fontSize < 14) :
    fitLoop measure name maxWidth maxHeight fontSize lines total =
      ⟨fontSize, lines, total⟩ := by
  rw [fitLoop]
  simp [show ¬ (14 ≤ fontSize) by omega]

theorem fitLoop_found (measure : ℤ → String → ℚ) (name : String)
    (maxWidth maxHeight : ℚ) (fontSize : ℤ) (lines : List String) (total : ℚ)
    (h : 14 ≤ fontSize)
    (hfit : fitsAt measure name maxWidth maxHeight fontSize) :
    fitLoop measure name maxWidth maxHeight fontSize lines total =
      ⟨fontSize, wrapText (measure fontSize) name maxWidth,
        ((wrapText (measure fontSize) name maxWidth).length : ℚ) * (fontSize : ℚ) * (23 / 20)⟩ := by
  rw [fitLoop]
  simp [h, fitsAt] at hfit ⊢
  simp [hfit]

theorem fitLoop_cont (measure : ℤ → String → ℚ) (name : String)
    (maxWidth maxHeight : ℚ) (fontSize : ℤ) (lines : List String) (total : ℚ)
    (h : 14 ≤ fontSize)
    (hfit : ¬ fitsAt measure name maxWidth maxHeight fontSize) :
    fitLoop measure name maxWidth maxHeight fontSize lines total =
      fitLoop measure name maxWidth maxHeight (fontSize - 2)
        (wrapText (measure fontSize) name maxWidth)
        (((wrapText (measure fontSize) name maxWidth).length : ℚ) * (fontSize : ℚ) * (23 / 20)) := by
  rw [fitLoop]
  simp [fitsAt] at hfit
  simp [h, hfit]

/-- Behaviour of the font-fit loop started at `13 + 2k`: it returns the
largest candidate size that fits, and `13` when none fits. -/
theorem fitLoop_spec_aux (measure : ℤ → String → ℚ) (name : String)
    (maxWidth maxHeight : ℚ) :
    ∀ (k : ℕ) (f0 : ℤ), f0 = 13 + 2 * (k : ℤ) → ∀ (lines : List String) (total : ℚ),
      ((∃ f : ℤ, 14 ≤ f ∧ f ≤ f0 ∧ (f0 - f) % 2 = 0 ∧
          fitsAt measure name maxWidth maxHeight f) →
        (14 ≤ (fitLoop measure name maxWidth maxHeight f0 lines total).fontSize ∧
          (fitLoop measure name maxWidth maxHeight f0 lines total).fontSize ≤ f0 ∧
          fitsAt measure name maxWidth maxHeight
            (fitLoop measure name maxWidth maxHeight f0 lines total).fontSize ∧
          ∀ g : ℤ, (fitLoop measure name maxWidth maxHeight f0 lines total).fontSize < g →
            g ≤ f0 → (f0 - g) % 2 = 0 → ¬ fitsAt measure name maxWidth maxHeight g)) ∧
      ((∀ f : ℤ, 14 ≤ f → f ≤ f0 → (f0 - f) % 2 = 0 →
          ¬ fitsAt measure name maxWidth maxHeight f) →
        (fitLoop measure name maxWidth maxHeight f0 lines total).fontSize = 13)
  | 0, f0, hf0, lines, total => by
    subst hf0
    rw [fitLoop_exit measure name maxWidth maxHeight _ lines total (by omega)]
    constructor
    · rintro ⟨f, hf14, hfle, -, -⟩
      omega
    · intro _
      rfl
  | k + 1, f0, hf0, lines, total => by
    have h14 : 14 ≤ f0 := by omega
    by_cases hfit : fitsAt measure name maxWidth maxHeight f0
    · rw [fitLoop_found measure name maxWidth maxHeight f0 lines total h14 hfit]
      constructor
      · intro _
        exact ⟨h14, le_refl f0, hfit, fun g hg1 hg2 _ => absurd (lt_of_lt_of_le hg1 hg2)
          (lt_irrefl f0)⟩
      · intro hnone
        exact absurd hfit (hnone f0 h14 (le_refl f0) (by omega))
    · rw [fitLoop_cont measure name maxWidth maxHeight f0 lines total h14 hfit]
      have ih := fitLoop_spec_aux measure name maxWidth maxHeight k (f0 - 2) (by omega)
        (wrapText (measure f0) name maxWidth)
        (((wrapText (measure f0) name maxWidth).length : ℚ) * (f0 : ℚ) * (23 / 20))
      constructor
      · rintro ⟨f, hf14, hfle, hfpar, hffits⟩
        have hfne : f ≠ f0 := fun h => hfit (h ▸ hffits)
        have hstep := ih.1 ⟨f, hf14, by omega, by omega, hffits⟩
        refine ⟨hstep.1, by omega, hstep.2.2.1, ?_⟩
        intro g hg1 hg2 hgpar
        by_cases hgcase : g ≤ f0 - 2
        · exact hstep.2.2.2 g hg1 hgcase (by omega)
        · have : g = f0 := by omega
          exact this ▸ hfit
      · intro hnone
        exact ih.2 (fun f hf14 hfle hfpar => hnone f hf14 (by omega) (by omega))

/-- The loop's result for an odd start value at least 13. -/
theorem fitLoop_spec (measure : ℤ → String → ℚ) (name : String)
    (maxWidth maxHeight : ℚ) (f0 : ℤ) (hodd : f0 % 2 = 1) (h13 : 13 ≤ f0)
    (lines : List String) (total : ℚ) :
    ((∃ f : ℤ, 14 ≤ f ∧ f ≤ f0 ∧ (f0 - f) % 2 = 0 ∧
        fitsAt measure name maxWidth maxHeight f) →
      (14 ≤ (fitLoop measure name maxWidth maxHeight f0 lines total).fontSize ∧
        (fitLoop measure name maxWidth maxHeight f0 lines total).fontSize ≤ f0 ∧
        fitsAt measure name maxWidth maxHeight
          (fitLoop measure name maxWidth maxHeight f0 lines total).fontSize ∧
        ∀ g : ℤ, (fitLoop measure name maxWidth maxHeight f0 lines total).fontSize < g →
          g ≤ f0 → (f0 - g) % 2 = 0 → ¬ fitsAt measure name maxWidth maxHeight g)) ∧
    ((∀ f : ℤ, 14 ≤ f → f ≤ f0 → (f0 - f) % 2 = 0 →
        ¬ fitsAt measure name maxWidth maxHeight f) →
      (fitLoop measure name maxWidth maxHeight f0 lines total).fontSize = 13) := by
  have hk : f0 = 13 + 2 * (((f0 - 13) / 2).toNat : ℤ) := by omega
  exact fitLoop_spec_aux measure name maxWidth maxHeight ((f0 - 13) / 2).toNat f0 hk lines total

/-- A measure function under which every test line is wider than any block:
models a long unbreakable name. -/
def overflowMeasure : ℤ → String → ℚ :=
  fun _ _ => 1000

def overflowNS : NameSettings :=
  { defaultNameSettings with enabled := true, name := "a b c d" }

/-- A measure function under which everything fits on one line. -/
def zeroMeasure : ℤ → String → ℚ :=
  fun _ _ => 0

def oneWordNS : NameSettings :=
  { defaultNameSettings with enabled := true, name := "x" }

theorem overflow_no_fit (f : ℤ) (h14 : 14 ≤ f) :
    ¬ fitsAt overflowMeasure "a b c d" ((438 : ℚ) - 16 * 2) ((70 : ℚ) - 16) f := by
  have hsplit : splitSpaces "a b c d" = ["a", "b", "c", "d"] := by decide
  have hwrap : wrapText (overflowMeasure f) "a b c d" ((438 : ℚ) - 16 * 2) =
      ["a", "b", "c", "d"] := by
    rw [wrapText, hsplit]
    simp [wrapAux, overflowMeasure]
    norm_num
  unfold fitsAt
  rw [hwrap]
  simp only [List.length_cons, List.length_nil]
  intro hle
  have hf : (14 : ℚ) ≤ (f : ℚ) := by exact_mod_cast h14
  have : ((0 + 1 + 1 + 1 + 1 : ℕ) : ℚ) = 4 := by norm_num
  rw [this] at hle
  linarith

theorem startFontSize_70 : startFontSize 70 = 31 := by
  unfold startFontSize
  norm_num

theorem startFontSize_100 : startFontSize 100 = 45 := by
  unfold startFontSize
  rw [show (100 : ℚ) * (9 / 20) = 45 by norm_num]
  exact Int.floor_intCast 45

theorem startFontSize_140 : startFontSize 140 = 63 := by
  unfold startFontSize
  rw [show (140 : ℚ) * (9 / 20) = 63 by norm_num]
  exact Int.floor_intCast 63

/-- C4 counterexample: with a name of four words each wider than the block,
no candidate size fits, and the loop exits with `fontSize = 13` — strictly
below the floor 14 that the claim asserts, and outside
`[14, floor(heightPx * 0.45)]`. -/
theorem fontFit_counterexample :
    (renderNameLabelFontFit overflowMeasure overflowNS 438 70).fontSize = 13 ∧
    (renderNameLabelFontFit overflowMeasure overflowNS 438 70).fontSize < 14 := by
  have h13 := (fitLoop_spec overflowMeasure "a b c d" ((438 : ℚ) - 16 * 2)
      ((70 : ℚ) - 16) 31 (by norm_num) (by norm_num) [] 0).2
    (fun f h14 _ _ => overflow_no_fit f h14)
  have heq : renderNameLabelFontFit overflowMeasure overflowNS 438 70 =
      fitLoop overflowMeasure "a b c d" ((438 : ℚ) - 16 * 2) ((70 : ℚ) - 16) 31 [] 0 := by
    unfold renderNameLabelFontFit
    rw [startFontSize_70]
    rfl
  rw [heq, h13]
  exact ⟨rfl, by norm_num⟩

/-- C4 amended: for the block pixel heights 70, 100 and 140 the loop starts
at `floor(heightPx * 0.45)` and decreases in steps of 2; the final font size
is the largest candidate in that descending sequence, within
`[14, floor(heightPx * 0.45)]`, whose wrapped text height
`lines * fontSize * 1.15` does not exceed `heightPx - 16` — but if no
candidate fits, the loop exits at 13 (two below the last tried size 15),
not at the floor 14. -/
theorem fontFit_amended (measure : ℤ → String → ℚ) (ns : NameSettings)
    (widthPx heightPx : ℚ)
    (hh : heightPx = 70 ∨ heightPx = 100 ∨ heightPx = 140) :
    ((∃ f : ℤ, 14 ≤ f ∧ f ≤ startFontSize heightPx ∧
        (startFontSize heightPx - f) % 2 = 0 ∧
        fitsAt measure ns.name (widthPx - 16 * 2) (heightPx - 16) f) →
      (14 ≤ (renderNameLabelFontFit measure ns widthPx heightPx).fontSize ∧
        (renderNameLabelFontFit measure ns widthPx heightPx).fontSize ≤
          startFontSize heightPx ∧
        fitsAt measure ns.name (widthPx - 16 * 2) (heightPx - 16)
          (renderNameLabelFontFit measure ns widthPx heightPx).fontSize ∧
        ∀ g : ℤ, (renderNameLabelFontFit measure ns widthPx heightPx).fontSize < g →
          g ≤ startFontSize heightPx → (startFontSize heightPx - g) % 2 = 0 →
          ¬ fitsAt measure ns.name (widthPx - 16 * 2) (heightPx - 16) g)) ∧
    ((∀ f : ℤ, 14 ≤ f → f ≤ startFontSize heightPx →
        (startFontSize heightPx - f) % 2 = 0 →
        ¬ fitsAt measure ns.name (widthPx - 16 * 2) (heightPx - 16) f) →
      (renderNameLabelFontFit measure ns widthPx heightPx).fontSize = 13) := by
  have hodd : startFontSize heightPx % 2 = 1 ∧ 13 ≤ startFontSize heightPx := by
    rcases hh with h | h | h <;> subst h
    · rw [startFontSize_70]; omega
    · rw [startFontSize_100]; omega
    · rw [startFontSize_140]; omega
  exact fitLoop_spec measure ns.name (widthPx - 16 * 2) (heightPx - 16)
    (startFontSize heightPx) hodd.1 hodd.2 [] 0

/-- Witness for C4 amended: a one-word name fits at the starting size 31 for
the small block (70 px). -/
theorem fontFit_amended_witness :
    ((70 : ℚ) = 70 ∨ (70 : ℚ) = 100 ∨ (70 : ℚ) = 140) ∧
    14 ≤ (renderNameLabelFontFit zeroMeasure oneWordNS 438 70).fontSize ∧
    (renderNameLabelFontFit zeroMeasure oneWordNS 438 70).fontSize ≤ startFontSize 70 ∧
    fitsAt zeroMeasure "x" ((438 : ℚ) - 16 * 2) ((70 : ℚ) - 16)
      (renderNameLabelFontFit zeroMeasure oneWordNS 438 70).fontSize := by
  have hsplit : splitSpaces "x" = ["x"] := by decide
  have hfits31 : fitsAt zeroMeasure "x" ((438 : ℚ) - 16 * 2) ((70 : ℚ) - 16) 31 := by
    unfold fitsAt
    rw [wrapText, hsplit]
    have hwrap : wrapAux (zeroMeasure 31) ((438 : ℚ) - 16 * 2) ["x"] [] "" = ["x"] := by
      simp [wrapAux, zeroMeasure]
    rw [hwrap]
    norm_num
  have hs := startFontSize_70
  have h := (fontFit_amended zeroMeasure oneWordNS 438 70 (Or.inl rfl)).1
    ⟨31, by norm_num, by omega, by omega, hfits31⟩
  exact ⟨Or.inl rfl, h.1, h.2.1, h.2.2.1⟩

/-! Document layout engine, from `generatePDF` in
`src/utils/pdfGenerator.ts` (lines 508-621).  A jsPDF document starts with
one page; `addPage` is called exactly when `positionOnPage = 0` and
`pageIndex > 0`.  Each card contributes one placed cell; a failed image
load rejects the whole pass before `pdf.save` runs. -/

/-- Cell origin for `positionOnPage = p`, from lines 544-558: two columns
for the 20-per-page layout, a single column otherwise. -/
def cardPosition (cardsPerPage p : ℕ) : ℚ × ℚ :=
  if cardsPerPage = 20 then
    let columnsPerPage := 2
    let col := p % columnsPerPage
    let row := p / columnsPerPage
    ((col : ℚ) * getCardWidth cardsPerPage, (row : ℚ) * getCardHeight cardsPerPage)
  else
    (0, (p : ℚ) * getCardHeight cardsPerPage)

structure CardCell where
  pageIndex : ℕ
  x : ℚ
  y : ℚ
  gmLabel : Bool
  playerLabel : Bool
deriving Repr

/-- What one loop iteration of `generatePDF` records for card `i`. -/
def mkCell (cardsPerPage i : ℕ) (c : CharacterCard) : CardCell :=
  { pageIndex := i / cardsPerPage
    x := (cardPosition cardsPerPage (i % cardsPerPage)).1
    y := (cardPosition cardsPerPage (i % cardsPerPage)).2
    gmLabel := (cardLabels c.nameSettings).1
    playerLabel := (cardLabels c.nameSettings).2 }

/-- Result of one `generatePDF` call: an empty deck returns without creating
a document, a failed image load rejects, otherwise the document is saved
with its page count, the indices at which `addPage` was called, and the
per-card cells. -/
inductive GenResult
  | noDoc
  | error
  | saved (numPages : ℕ) (addPagesAt : List ℕ) (cells : List CardCell)
deriving Repr

/-- The per-card loop of `generatePDF` (lines 535-605), threading the page
count (1 after the `new jsPDF` call), the `addPage` call sites and the
placed cells. -/
def genLoop (cardsPerPage : ℕ) :
    List CharacterCard → ℕ → ℕ → List ℕ → List CardCell →
      Option (ℕ × List ℕ × List CardCell)
  | [], _, pages, addPagesAt, cells => some (pages, addPagesAt, cells)
  | c :: rest, i, pages, addPagesAt, cells =>
    let pageIndex := i / cardsPerPage
    let positionOnPage := i % cardsPerPage
    let isNewPage := positionOnPage = 0 ∧ 0 < pageIndex
    let pages' := if isNewPage then pages + 1 else pages
    let addPagesAt' := if isNewPage then addPagesAt ++ [i] else addPagesAt
    if c.imageLoads then
      genLoop cardsPerPage rest (i + 1) pages' addPagesAt'
        (cells ++ [mkCell cardsPerPage i c])
    else
      none

def generatePDF (cards : List CharacterCard) (cardsPerPage : ℕ) : GenResult :=
  if cards.length = 0 then .noDoc
  else
    match genLoop cardsPerPage cards 0 1 [] [] with
    | none => .error
    | some (pages, addPagesAt, cells) => .saved pages addPagesAt cells

def GenResult.pages? : GenResult → Option ℕ
  | .saved p _ _ => some p
  | _ => none

def GenResult.cells : GenResult → List CardCell
  | .saved _ _ cs => cs
  | _ => []

/-- The cells the loop appends for `cards` starting at index `i`. -/
def expectedCells (cardsPerPage i : ℕ) : List CharacterCard → List CardCell
  | [] => []
  | c :: rest => mkCell cardsPerPage i c :: expectedCells cardsPerPage (i + 1) rest

/-- The `addPage` condition of line 540 as a Boolean predicate on the card
index. -/
def isPageBreak (cardsPerPage j : ℕ) : Bool :=
  decide (j % cardsPerPage = 0 ∧ 0 < j / cardsPerPage)

theorem genLoop_ok (cardsPerPage : ℕ) :
    ∀ (cards : List CharacterCard) (i pages : ℕ) (addPagesAt : List ℕ)
      (cells : List CardCell),
      (∀ c ∈ cards, c.imageLoads = true) →
      genLoop cardsPerPage cards i pages addPagesAt cells =
        some (pages + (List.range' i cards.length).countP (isPageBreak cardsPerPage),
          addPagesAt ++ (List.range' i cards.length).filter (isPageBreak cardsPerPage),
          cells ++ expectedCells cardsPerPage i cards)
  | [], i, pages, a, cs, _ => by
    simp [genLoop, expectedCells]
  | c :: rest, i, pages, a, cs, hok => by
    have hc : c.imageLoads = true := hok c (by simp)
    have hrest : ∀ x ∈ rest, x.imageLoads = true := fun x hx => hok x (by simp [hx])
    simp only [genLoop, hc, if_true]
    rw [genLoop_ok cardsPerPage rest (i + 1) _ _ _ hrest]
    simp only [List.length_cons, List.range'_succ, List.countP_cons, List.filter_cons,
      expectedCells]
    by_cases hnp : i % cardsPerPage = 0 ∧ 0 < i / cardsPerPage
    · have hb : isPageBreak cardsPerPage i = true := by
        simp [isPageBreak, hnp]
      simp only [if_pos hnp, hb, if_true]
      refine congrArg some ?_
      refine Prod.ext ?_ (Prod.ext ?_ ?_) <;> simp [List.countP_cons, hb]
      omega
    · have hb : isPageBreak cardsPerPage i = false := by
        simp only [isPageBreak, decide_eq_false_iff_not]
        exact hnp
      simp only [if_neg hnp, hb, Bool.false_eq_true, if_false]
      refine congrArg some ?_
      refine Prod.ext ?_ (Prod.ext ?_ ?_) <;> simp [List.countP_cons, hb]

theorem genLoop_fail (cardsPerPage : ℕ) :
    ∀ (cards : List CharacterCard) (i pages : ℕ) (addPagesAt : List ℕ)
      (cells : List CardCell),
      (∃ c ∈ cards, c.imageLoads = false) →
      genLoop cardsPerPage cards i pages addPagesAt cells = none
  | [], i, pages, a, cs, hbad => by
    simp at hbad
  | c :: rest, i, pages, a, cs, hbad => by
    by_cases hc : c.imageLoads = true
    · have hrest : ∃ x ∈ rest, x.imageLoads = false := by
        rcases hbad with ⟨x, hx, hxf⟩
        rcases List.mem_cons.mp hx with h | h
        · exact absurd hc (by rw [h] at hxf; simp [hxf])
        · exact ⟨x, h, hxf⟩
      simp only [genLoop, hc, if_true]
      exact genLoop_fail cardsPerPage rest (i + 1) _ _ _ hrest
    · simp only [genLoop, Bool.not_eq_true] at hc ⊢
      simp [hc]

/-- Number of `addPage` calls over the first `n + 1` indices. -/
theorem countP_pageBreak (cardsPerPage : ℕ) (hL : 0 < cardsPerPage) :
    ∀ n : ℕ, (List.range (n + 1)).countP (isPageBreak cardsPerPage) = n / cardsPerPage := by
  intro n
  induction n with
  | zero =>
    simp [List.range_succ, isPageBreak, Nat.zero_div]
  | succ n ih =>
    rw [List.range_succ, List.countP_append, ih]
    simp only [List.countP_cons, List.countP_nil]
    by_cases hd : cardsPerPage ∣ (n + 1)
    · have h1 : (n + 1) % cardsPerPage = 0 := Nat.dvd_iff_mod_eq_zero.mp hd
      have h2 : 0 < (n + 1) / cardsPerPage :=
        Nat.div_pos (Nat.le_of_dvd (by omega) hd) hL
      rw [Nat.succ_div]
      simp [isPageBreak, hd, h1, h2]
    · have h1 : (n + 1) % cardsPerPage ≠ 0 := fun h => hd (Nat.dvd_iff_mod_eq_zero.mpr h)
      rw [Nat.succ_div]
      simp [isPageBreak, hd, h1]

/-- A card whose image decodes, with the default (disabled) name settings. -/
def okCard : CharacterCard :=
  { imageLoads := true, nameSettings := defaultNameSettings }

/-- A card whose image fails to decode. -/
def badCard : CharacterCard :=
  { imageLoads := false, nameSettings := defaultNameSettings }

theorem generatePDF_eq_saved (cards : List CharacterCard) (cardsPerPage : ℕ)
    (h : cards.length ≠ 0) (p : ℕ) (a : List ℕ) (cs : List CardCell)
    (hg : genLoop cardsPerPage cards 0 1 [] [] = some (p, a, cs)) :
    generatePDF cards cardsPerPage = .saved p a cs := by
  unfold generatePDF
  rw [if_neg h, hg]

theorem generatePDF_eq_error (cards : List CharacterCard) (cardsPerPage : ℕ)
    (h : cards.length ≠ 0)
    (hg : genLoop cardsPerPage cards 0 1 [] [] = none) :
    generatePDF cards cardsPerPage = .error := by
  unfold generatePDF
  rw [if_neg h, hg]

/-- C1: for L in {4,5,20} and a deck whose images all load, an empty deck is
a silent no-op producing no document, while a non-empty deck of N cards is
saved with exactly ceil(N / L) = (N + L - 1) / L pages, `addPage` being
called exactly at the indices with `i mod L = 0` and `floor(i / L) > 0`. -/
theorem generatePDF_pages (cardsPerPage : ℕ)
    (hL : cardsPerPage = 4 ∨ cardsPerPage = 5 ∨ cardsPerPage = 20)
    (cards : List CharacterCard) (hok : ∀ c ∈ cards, c.imageLoads = true) :
    (cards.length = 0 → generatePDF cards cardsPerPage = .noDoc) ∧
    (0 < cards.length →
      ∃ cells, generatePDF cards cardsPerPage =
        .saved ((cards.length + cardsPerPage - 1) / cardsPerPage)
          ((List.range cards.length).filter (isPageBreak cardsPerPage))
          cells) := by
  have hL0 : 0 < cardsPerPage := by rcases hL with h | h | h <;> omega
  constructor
  · intro h0
    simp [generatePDF, h0]
  · intro hpos
    refine ⟨expectedCells cardsPerPage 0 cards, ?_⟩
    have h := genLoop_ok cardsPerPage cards 0 1 [] [] hok
    simp only [List.nil_append, ← List.range_eq_range'] at h
    have hcount : 1 + (List.range cards.length).countP (isPageBreak cardsPerPage) =
        (cards.length + cardsPerPage - 1) / cardsPerPage := by
      obtain ⟨n, hn⟩ : ∃ n, cards.length = n + 1 := ⟨cards.length - 1, by omega⟩
      rw [hn, countP_pageBreak cardsPerPage hL0 n,
        show n + 1 + cardsPerPage - 1 = n + cardsPerPage from by omega,
        Nat.add_div_right n hL0]
      omega
    rw [← hcount]
    exact generatePDF_eq_saved cards cardsPerPage (by omega) _ _ _ h

/-- Witness for C1: seven cards at five per page give two pages, with the
single `addPage` call at card index 5. -/
theorem generatePDF_pages_witness :
    (∀ c ∈ List.replicate 7 okCard, c.imageLoads = true) ∧
    0 < (List.replicate 7 okCard).length ∧
    (∃ cells, generatePDF (List.replicate 7 okCard) 5 = .saved 2 [5] cells) := by
  refine ⟨by decide, by decide, ?_⟩
  obtain ⟨cells, hc⟩ := (generatePDF_pages 5 (Or.inr (Or.inl rfl))
    (List.replicate 7 okCard) (by decide)).2 (by decide)
  have e1 : ((List.replicate 7 okCard).length + 5 - 1) / 5 = 2 := by decide
  have e2 : (List.range (List.replicate 7 okCard).length).filter (isPageBreak 5) = [5] := by
    decide
  rw [e1, e2] at hc
  exact ⟨cells, hc⟩

/-- C8: if any card's image fails to load, the whole `generatePDF` pass
rejects: the result is an error and no document is saved. -/
theorem generatePDF_decodeFailure (cardsPerPage : ℕ)
    (hL : cardsPerPage = 4 ∨ cardsPerPage = 5 ∨ cardsPerPage = 20)
    (cards : List CharacterCard) (hbad : ∃ c ∈ cards, c.imageLoads = false) :
    generatePDF cards cardsPerPage = .error := by
  have hne : cards.length ≠ 0 := by
    rcases hbad with ⟨c, hc, -⟩
    cases cards with
    | nil => simp at hc
    | cons _ _ => simp
  exact generatePDF_eq_error cards cardsPerPage hne
    (genLoop_fail cardsPerPage cards 0 1 [] [] hbad)

/-- Witness for C8: a one-card deck whose image fails to decode errors. -/
theorem generatePDF_decodeFailure_witness :
    (∃ c ∈ [badCard], c.imageLoads = false) ∧
    generatePDF [badCard] 5 = .error := by
  exact ⟨by decide, generatePDF_decodeFailure 5 (Or.inr (Or.inl rfl)) [badCard] (by decide)⟩

theorem expectedCells_getElem (cardsPerPage : ℕ) :
    ∀ (cards : List CharacterCard) (i j : ℕ),
      (expectedCells cardsPerPage i cards)[j]? =
        (cards[j]?).map (mkCell cardsPerPage (i + j))
  | [], i, j => by simp [expectedCells]
  | c :: rest, i, 0 => by simp [expectedCells]
  | c :: rest, i, j + 1 => by
    simp only [expectedCells, List.getElem?_cons_succ]
    rw [expectedCells_getElem cardsPerPage rest (i + 1) j,
      show i + 1 + j = i + (j + 1) from by omega]

/-- C5: in a successful pass, card i sits on page floor(i / L) with cell
origin x = (i mod L mod 2) * cardWidth, y = (i mod L div 2) * cardHeight for
the 20-per-page layout, and x = 0, y = (i mod L) * cardHeight for 4/5. -/
theorem generatePDF_cardPosition (cardsPerPage : ℕ)
    (hL : cardsPerPage = 4 ∨ cardsPerPage = 5 ∨ cardsPerPage = 20)
    (cards : List CharacterCard) (hok : ∀ c ∈ cards, c.imageLoads = true)
    (i : ℕ) (hi : i < cards.length) (c : CharacterCard) (hc : cards[i]? = some c) :
    ((generatePDF cards cardsPerPage).cells)[i]? = some (mkCell cardsPerPage i c) ∧
    (mkCell cardsPerPage i c).pageIndex = i / cardsPerPage ∧
    (mkCell cardsPerPage i c).x =
      (if cardsPerPage = 20
        then ((i % cardsPerPage % 2 : ℕ) : ℚ) * getCardWidth cardsPerPage
        else 0) ∧
    (mkCell cardsPerPage i c).y =
      (if cardsPerPage = 20
        then ((i % cardsPerPage / 2 : ℕ) : ℚ) * getCardHeight cardsPerPage
        else ((i % cardsPerPage : ℕ) : ℚ) * getCardHeight cardsPerPage) := by
  have h := genLoop_ok cardsPerPage cards 0 1 [] [] hok
  simp only [List.nil_append] at h
  have hsaved := generatePDF_eq_saved cards cardsPerPage (by omega) _ _ _ h
  refine ⟨?_, rfl, ?_, ?_⟩
  · rw [hsaved]
    simp only [GenResult.cells]
    rw [expectedCells_getElem cardsPerPage cards 0 i, hc]
    simp
  · by_cases h20 : cardsPerPage = 20 <;> simp [mkCell, cardPosition, h20]
  · by_cases h20 : cardsPerPage = 20 <;> simp [mkCell, cardPosition, h20]

/-- Witness for C5: the third card of a 20-per-page deck sits at column 0,
row 1. -/
theorem generatePDF_cardPosition_witness :
    (∀ c ∈ List.replicate 3 okCard, c.imageLoads = true) ∧
    2 < (List.replicate 3 okCard).length ∧
    (List.replicate 3 okCard)[2]? = some okCard ∧
    (((generatePDF (List.replicate 3 okCard) 20).cells)[2]? = some (mkCell 20 2 okCard) ∧
      (mkCell 20 2 okCard).pageIndex = 2 / 20 ∧
      (mkCell 20 2 okCard).x =
        (if 20 = 20 then ((2 % 20 % 2 : ℕ) : ℚ) * getCardWidth 20 else 0) ∧
      (mkCell 20 2 okCard).y =
        (if 20 = 20 then ((2 % 20 / 2 : ℕ) : ℚ) * getCardHeight 20
          else ((2 % 20 : ℕ) : ℚ) * getCardHeight 20)) := by
  refine ⟨by decide, by decide, by decide, ?_⟩
  exact generatePDF_cardPosition 20 (Or.inr (Or.inr rfl)) (List.replicate 3 okCard)
    (by decide) 2 (by decide) okCard (by decide)

theorem expectedCells_replicate (cardsPerPage : ℕ) (c : CharacterCard) :
    ∀ (n i : ℕ), expectedCells cardsPerPage i (List.replicate n c) =
      (List.range' i n).map (fun j => mkCell cardsPerPage j c)
  | 0, i => by simp [expectedCells]
  | n + 1, i => by
    rw [List.replicate_succ]
    simp only [expectedCells, List.range'_succ, List.map_cons]
    rw [expectedCells_replicate cardsPerPage c n (i + 1)]

/-- Evaluation of the 23-card, 20-per-page scenario. -/
theorem gen23 : generatePDF (List.replicate 23 okCard) 20 =
    .saved 2 [20] ((List.range' 0 23).map (fun j => mkCell 20 j okCard)) := by
  have h := genLoop_ok 20 (List.replicate 23 okCard) 0 1 [] [] (by decide)
  rw [List.length_replicate, expectedCells_replicate,
    show (List.range' 0 23).countP (isPageBreak 20) = 1 from by decide,
    show (List.range' 0 23).filter (isPageBreak 20) = [20] from by decide] at h
  simp only [List.nil_append] at h
  exact generatePDF_eq_saved _ _ (by decide) _ _ _ h

/-- C6 counterexample: with 23 cards at 20 per page, the three cards of the
second page are laid out row-major at (column 0, row 0), (column 1, row 0)
and (column 0, row 1) — not, as claimed, in column 0 rows 0 through 2. -/
theorem layout23_positions_counterexample :
    ((generatePDF (List.replicate 23 okCard) 20).cells.drop 20).map
        (fun cell => (cell.x, cell.y)) =
      [(0, 0), (getCardWidth 20, 0), (0, getCardHeight 20)] ∧
    ((generatePDF (List.replicate 23 okCard) 20).cells.drop 20).map
        (fun cell => (cell.x, cell.y)) ≠
      [(0, 0), (0, getCardHeight 20), (0, 2 * getCardHeight 20)] := by
  have heval : ((generatePDF (List.replicate 23 okCard) 20).cells.drop 20).map
      (fun cell => (cell.x, cell.y)) =
      [(0, 0), (getCardWidth 20, 0), (0, getCardHeight 20)] := by
    rw [gen23]
    simp only [GenResult.cells]
    rw [← List.map_drop, show (List.range' 0 23).drop 20 = [20, 21, 22] from by decide]
    simp [mkCell, cardPosition]
  refine ⟨heval, ?_⟩
  rw [heval]
  intro hcontra
  norm_num [getCardWidth, getCardHeight, CARD_WIDTH_MM, A4_WIDTH_MM, A4_HEIGHT_MM]
    at hcontra

/-- C6 amended: 23 cards at 20 per page produce exactly 2 pages, with 20
cards on the first page and 3 on the second; the second page's three cards
occupy, in row-major order, (column 0, row 0), (column 1, row 0) and
(column 0, row 1). -/
theorem layout23_pages :
    (generatePDF (List.replicate 23 okCard) 20).pages? = some 2 ∧
    (generatePDF (List.replicate 23 okCard) 20).cells.countP
      (fun cell => cell.pageIndex == 0) = 20 ∧
    (generatePDF (List.replicate 23 okCard) 20).cells.countP
      (fun cell => cell.pageIndex == 1) = 3 ∧
    ((generatePDF (List.replicate 23 okCard) 20).cells.drop 20).map
      (fun cell => (cell.x, cell.y)) =
      [(0, 0), (getCardWidth 20, 0), (0, getCardHeight 20)] := by
  refine ⟨?_, ?_, ?_, ?_⟩ <;> rw [gen23]
  · rfl
  · simp only [GenResult.cells]
    rw [List.countP_map]
    simp only [Function.comp, mkCell]
    decide
  · simp only [GenResult.cells]
    rw [List.countP_map]
    simp only [Function.comp, mkCell]
    decide
  · simp only [GenResult.cells]
    rw [← List.map_drop, show (List.range' 0 23).drop 20 = [20, 21, 22] from by decide]
    simp [mkCell, cardPosition]

end CardGen
